import Mathlib

/-!
Verification of the vpnv4 route driver core
(`src/ovn_bgp_vpnv4/{config,allocator,frr,driver}.py`).

The Python modules are shallowly embedded: dataclasses become structures,
Python `dict`s become insertion-ordered association lists (a `dict`
assignment replaces the value in place for an existing key and appends for
a new key, which `dictInsert` reproduces), exceptions become `Except`
values returned together with the (unchanged) state, and machine-side
effects (writing `vpnv4.conf`) are reflected by a `Bool` flag recording
whether an operation triggered a render.  `hashlib.sha256` (Python
standard library, used only through its first two digest bytes) is kept as
an uninterpreted function field of the allocator, so every theorem below
quantifies over all possible digest outcomes.
-/

set_option maxRecDepth 8000

namespace OvnBgpVpnv4

/-- Insertion-ordered association-list lookup, mirroring Python `dict`
membership/subscript semantics. -/
def lookupA {α β : Type} [DecidableEq α] : List (α × β) → α → Option β
  | [], _ => none
  | (k', v') :: rest, k => if k' = k then some v' else lookupA rest k

/-- Python `dict` assignment `d[k] = v`: replaces the value of an existing
key in place, appends a new key at the end. -/
def dictInsert {α β : Type} [DecidableEq α] : List (α × β) → α → β → List (α × β)
  | [], k, v => [(k, v)]
  | (k', v') :: rest, k, v => if k' = k then (k', v) :: rest else (k', v') :: dictInsert rest k v

/-- Python `dict.pop(k, None)`: removes the entry with key `k` if present. -/
def eraseKey {α β : Type} [DecidableEq α] : List (α × β) → α → List (α × β)
  | [], _ => []
  | (k', v') :: rest, k => if k' = k then rest else (k', v') :: eraseKey rest k

/-- Helper for `pyDedup`: keeps the first occurrence of each element not
yet seen, in input order. -/
def pyDedupAux (seen : List String) : List String → List String
  | [] => []
  | p :: rest => if p ∈ seen then pyDedupAux seen rest else p :: pyDedupAux (p :: seen) rest

/-- Python `list(dict.fromkeys(xs))`: de-duplication keeping the first
occurrence of each element, preserving order. -/
def pyDedup (l : List String) : List String := pyDedupAux [] l

/-! ## Data model (`config.py`) -/

/-- Embeds `config.AddressFamily`: supported address families. -/
inductive AddressFamily : Type
  | VPNV4
  | VPNV6
deriving DecidableEq

/-- Embeds `config.Neighbor`: BGP neighbour description. -/
structure Neighbor : Type where
  address : String
  remote_asn : Nat
  families : List AddressFamily
  description : Option String
deriving DecidableEq

/-- Embeds `config.VRFDefinition`: a logical tenant VRF exported via vpnv4. -/
structure VRFDefinition : Type where
  name : String
  rd : String
  import_rts : List String
  export_rts : List String
  label : Nat
deriving DecidableEq

/-- Embeds `config.GlobalConfig`: driver level configuration knobs. -/
structure GlobalConfig : Type where
  local_asn : Nat
  router_id : String
  rd_base : Nat
  rt_base : Nat
  neighbours : List Neighbor
  vrf_label_base : Nat
  export_ipv6 : Bool
deriving DecidableEq

/-- Embeds `config.TenantContext`: runtime data for a tenant/namespace.  The Python
attribute `namespace` is a Lean keyword, hence the field name `nspace`. -/
structure TenantContext : Type where
  nspace : String
  vrf : VRFDefinition
  advertised_prefixes : List String
deriving DecidableEq

namespace TenantContext

/-- Embeds `TenantContext.add_prefixes`: the Python list comprehension collects the
input entries absent from the *current* stored list (the stored list is not
consulted again between entries of one batch) and appends them. -/
def add_prefixes (t : TenantContext) (prefixes : List String) : TenantContext :=
  let missing := prefixes.filter (fun p => decide (p ∉ t.advertised_prefixes))
  { t with advertised_prefixes := t.advertised_prefixes ++ missing }

/-- Embeds `TenantContext.withdraw_prefixes`: removes the first occurrence of each
listed prefix that is present, in input order. -/
def withdraw_prefixes (t : TenantContext) (prefixes : List String) : TenantContext :=
  let step := fun (acc : List String) (p : String) => if p ∈ acc then acc.erase p else acc
  { t with advertised_prefixes := prefixes.foldl step t.advertised_prefixes }

/-- Modelled from the spec: `TenantContext.set_prefixes` is invoked by
`VPNv4RouteDriver.synchronize_prefixes` (driver.py line 128) but no
definition of it appears in the provided sources; spec §4.2 defines it as
"replaces the full ordered, de-duplicated prefix list for the namespace",
with order fixed to the de-duplicated input order. -/
def set_prefixes (t : TenantContext) (desired : List String) : TenantContext :=
  { t with advertised_prefixes := pyDedup desired }

end TenantContext

/-! ## Allocator (`allocator.py`) -/

/-- Embeds `allocator.Allocation`: RD/RT values assigned to a namespace. -/
structure Allocation : Type where
  rd : String
  import_rt : String
  export_rt : String
deriving DecidableEq

/-- Embeds the `allocator.DeterministicAllocator` state.  `hash_namespace` stands for
`int.from_bytes(sha256(ns).digest()[:2], "big")`, the 16-bit integer the
namespace digest is truncated to (before the `% max_id` reduction, which is
applied at the call site below exactly as in the source); it is kept
uninterpreted, so all theorems hold for every possible digest. -/

structure DeterministicAllocator : Type where
  rd_base : Nat
  rt_base : Nat
  max_id : Nat
  registry : List (String × Allocation)
  reverse : List (Nat × String)
  hash_namespace : String → Nat

namespace DeterministicAllocator

/-- Embeds `DeterministicAllocator.__init__` with an empty registry. -/
def init (rdBase rtBase maxId : Nat) (h : String → Nat) : DeterministicAllocator :=
  ⟨rdBase, rtBase, maxId, [], [], h⟩

/-- Embeds `DeterministicAllocator._format_rd`. -/
def format_rd (s : DeterministicAllocator) (identifier : Nat) : String :=
  toString s.rd_base ++ ":" ++ toString identifier

/-- Embeds `DeterministicAllocator._format_rt`. -/
def format_rt (s : DeterministicAllocator) (identifier : Nat) : String :=
  toString s.rt_base ++ ":" ++ toString identifier

/-- The `while` guard of `allocate`: the candidate identifier is bound to a
namespace other than the one being allocated. -/

def occupiedByOther (rev : List (Nat × String)) (ns : String) (candidate : Nat) : Bool :=
  match lookupA rev candidate with
  | some owner => decide (owner ≠ ns)
  | none => false

/-- The linear-probing `while` loop of `allocate`.  The loop advances
`candidate := (candidate + 1) % m` while the slot is occupied by a different
namespace and stops with failure when the walk returns to `start`.  For
`0 < m` and `start < m` the walk revisits `start` after exactly `m`
increments, so the cycle check fires before `m` recursive steps have been
taken; `allocate` passes `m` as fuel, which therefore never runs out and the
fuel-exhaustion branch is unreachable there (`probe_fuel_unreachable`). -/

def probe (rev : List (Nat × String)) (ns : String) (m start : Nat) :
    Nat → Nat → Option Nat
  | _, 0 => none
  | candidate, fuel + 1 =>
    if occupiedByOther rev ns candidate then
      let next := (candidate + 1) % m
      if next = start then none
      else probe rev ns m start next fuel
    else some candidate

/-- Embeds `DeterministicAllocator.allocate`.  The Python method raises
`RuntimeError("Allocator exhausted identifier space")` when the probe scans
the whole space; that is modelled as result `none`, with the state returned
unchanged (the source mutates `_registry`/`_reverse` only after the loop). -/
def allocate (s : DeterministicAllocator) (ns : String) :
    Option Allocation × DeterministicAllocator :=
  match lookupA s.registry ns with
  | some a => (some a, s)
  | none =>
    let start := s.hash_namespace ns % s.max_id
    match probe s.reverse ns s.max_id start start s.max_id with
    | none => (none, s)
    | some candidate =>
      let a : Allocation :=
        ⟨s.format_rd candidate, s.format_rt candidate, s.format_rt candidate⟩
      (some a,
        { s with
          registry := dictInsert s.registry ns a
          reverse := dictInsert s.reverse candidate ns })

/-- Fold a sequence of `allocate` calls (used to state that idempotence of
`allocate` is not disturbed by other allocations made in between). -/
def allocateMany (s : DeterministicAllocator) : List String → DeterministicAllocator
  | [] => s
  | ns :: rest => allocateMany (allocate s ns).2 rest

/-- Embeds `DeterministicAllocator.lookup`. -/
def lookup (s : DeterministicAllocator) (ns : String) : Option Allocation :=
  lookupA s.registry ns

/-- Invariant of a `DeterministicAllocator` instance: the identifier→namespace
registry `reverse` has pairwise-distinct identifiers and pairwise-distinct
namespaces, the namespace→Allocation `registry` has pairwise-distinct
namespaces, and both registries track exactly the same set of live
namespaces — together, the live entries form a bijection between
namespaces and identifiers. -/
@[reducible] def AllocInv (s : DeterministicAllocator) : Prop :=
  (s.reverse.map Prod.fst).Nodup ∧
  (s.reverse.map Prod.snd).Nodup ∧
  (s.registry.map Prod.fst).Nodup ∧
  (∀ n ∈ s.registry.map Prod.fst, n ∈ s.reverse.map Prod.snd) ∧
  (∀ n ∈ s.reverse.map Prod.snd, n ∈ s.registry.map Prod.fst)

end DeterministicAllocator

/-! ## Renderer (`frr.py`)

The renderer is pure except for writing `config_text` to
`<output_dir>/vpnv4.conf` (a whole-file overwrite); the file write is an
I/O effect outside this model, so `render` is embedded as the function
producing `config_text`, and the driver records through a `Bool` whether a
render (hence a file write) happened. -/

/-- Python `"sep".join(xs)`. -/
def joinSep (sep : String) : List String → String
  | [] => ""
  | [x] => x
  | x :: y :: rest => x ++ sep ++ joinSep sep (y :: rest)

/-- Embeds `frr.FRR_HEADER` (a triple-quoted literal ending in a newline). -/
def FRR_HEADER : String :=
  "!\nfrr version 9.x\nfrr defaults traditional\nservice integrated-vtysh-config\n!\n"

/-- Embeds `FRRConfigRenderer._render_neighbor_block`.  The `description`
guard is Python truthiness: `None` and the empty string both skip the line.
The ipv4-vpn sub-block requires `VPNV4 ∈ families`; the ipv6-vpn sub-block
additionally requires the global `export_ipv6` flag. -/
def renderNeighborBlock (cfg : GlobalConfig) (n : Neighbor) : List String :=
  let base := [" neighbor " ++ n.address ++ " remote-as " ++ toString n.remote_asn]
  let desc :=
    match n.description with
    | some d => if d = "" then [] else [" neighbor " ++ n.address ++ " description " ++ d]
    | none => []
  let v4 :=
    if AddressFamily.VPNV4 ∈ n.families then
      ["!", " address-family ipv4 vpn",
       "  neighbor " ++ n.address ++ " activate",
       "  neighbor " ++ n.address ++ " send-community extended",
       " exit-address-family"]
    else []
  let v6 :=
    if AddressFamily.VPNV6 ∈ n.families ∧ cfg.export_ipv6 = true then
      ["!", " address-family ipv6 vpn",
       "  neighbor " ++ n.address ++ " activate",
       "  neighbor " ++ n.address ++ " send-community extended",
       " exit-address-family"]
    else []
  base ++ desc ++ v4 ++ v6

/-- Embeds `FRRConfigRenderer._render_neighbors`. -/
def renderNeighbors (cfg : GlobalConfig) : String :=
  let header := ["router bgp " ++ toString cfg.local_asn,
                 " bgp router-id " ++ cfg.router_id,
                 " no bgp default ipv4-unicast"]
  joinSep "\n" (header ++ (cfg.neighbours.map (renderNeighborBlock cfg)).flatten)

/-- Line list of `FRRConfigRenderer._render_bgp_vrf_block` (the source
joins these with a newline, see `renderBgpVrfBlock`). -/
def renderBgpVrfBlockLines (cfg : GlobalConfig) (vrf : VRFDefinition)
    (prefixes : List String) : List String :=
  ["router bgp " ++ toString cfg.local_asn ++ " vrf " ++ vrf.name,
   " no bgp network import-check",
   " !",
   " address-family ipv4 unicast",
   "  export vpn",
   "  import vpn",
   "  redistribute static",
   "  rd vpn export " ++ vrf.rd]
  ++ vrf.import_rts.map (fun rt => "  route-target vpn import " ++ rt)
  ++ vrf.export_rts.map (fun rt => "  route-target vpn export " ++ rt)
  ++ (if prefixes = [] then ["  ! no prefixes advertised yet"]
      else prefixes.map (fun p => "  network " ++ p))
  ++ [" exit-address-family", "!"]

/-- Embeds `FRRConfigRenderer._render_bgp_vrf_block`. -/
def renderBgpVrfBlock (cfg : GlobalConfig) (vrf : VRFDefinition)
    (prefixes : List String) : String :=
  joinSep "\n" (renderBgpVrfBlockLines cfg vrf prefixes)

/-- Embeds `FRRConfigRenderer._render_vrfs`. -/
def renderVrfs (cfg : GlobalConfig) (tenants : List TenantContext) : String :=
  joinSep "\n" (tenants.map (fun t => renderBgpVrfBlock cfg t.vrf t.advertised_prefixes))

/-- Embeds `FRRConfigRenderer._render_route_maps`. -/
def renderRouteMaps : String :=
  joinSep "\n" ["route-map vpnv4-import permit 10", " !",
                "route-map vpnv4-export permit 10", " !"]

/-- Section list built by `FRRConfigRenderer.render` before the final
newline-join-of-non-empty-sections. -/
def renderSections (cfg : GlobalConfig) (includeGlobals : Bool)
    (tenants : List TenantContext) : List String :=
  let neighborAddresses := cfg.neighbours.map Neighbor.address
  let s0 := if includeGlobals then [FRR_HEADER, renderNeighbors cfg] else []
  let vrfs := renderVrfs cfg tenants
  let s1 := s0 ++ (if vrfs = "" then [] else [vrfs])
  if includeGlobals then
    (s1 ++ (if neighborAddresses = [] then [] else [renderRouteMaps])) ++ ["line vty", "!"]
  else
    s1 ++ (if neighborAddresses = [] then [] else [renderRouteMaps])

/-- Embeds `FRRConfigRenderer.render`: the returned `config_text`
(`body = "\n".join([s for s in sections if s])`). -/
def renderBody (cfg : GlobalConfig) (includeGlobals : Bool)
    (tenants : List TenantContext) : String :=
  joinSep "\n" ((renderSections cfg includeGlobals tenants).filter (fun s => s != ""))

/-! ## Driver (`driver.py`) -/

/-- Embeds `VPNv4RouteDriver` together with its `DriverState`: the tenant
map (insertion-ordered, like a Python dict), the last rendered
`config_text` and the construction-time configuration. -/
structure VPNv4RouteDriver : Type where
  config : GlobalConfig
  includeGlobals : Bool
  alloc : DeterministicAllocator
  tenants : List (String × TenantContext)
  lastRender : Option String

namespace VPNv4RouteDriver

/-- Embeds `VPNv4RouteDriver.render`: renders the current tenant list and
stores the result as the last render. -/
def render (d : VPNv4RouteDriver) : VPNv4RouteDriver :=
  let body := renderBody d.config d.includeGlobals (d.tenants.map Prod.snd)
  { d with lastRender := some body }

/-- Embeds `VPNv4RouteDriver.ensure_namespace`.  Allocator exhaustion is
the Python `RuntimeError` propagating out of `allocate`; it is raised
before any registration, so the driver state is returned unchanged. -/
def ensure_namespace (d : VPNv4RouteDriver) (ns : String) :
    Except String TenantContext × VPNv4RouteDriver :=
  match lookupA d.tenants ns with
  | some t => (Except.ok t, d)
  | none =>
    match DeterministicAllocator.allocate d.alloc ns with
    | (none, _) => (Except.error "Allocator exhausted identifier space", d)
    | (some al, a') =>
      let vrf : VRFDefinition := ⟨ns, al.rd, [al.import_rt], [al.export_rt], 0⟩
      let t : TenantContext := ⟨ns, vrf, []⟩
      (Except.ok t, { d with alloc := a', tenants := dictInsert d.tenants ns t })

/-- Embeds `VPNv4RouteDriver.withdraw_namespace`.  The final `Bool` records
whether a render (and hence a rewrite of the output file) was triggered. -/
def withdraw_namespace (d : VPNv4RouteDriver) (ns : String) :
    Option TenantContext × VPNv4RouteDriver × Bool :=
  match lookupA d.tenants ns with
  | none => (none, d, false)
  | some t => (some t, render { d with tenants := eraseKey d.tenants ns }, true)

/-- Embeds `VPNv4RouteDriver.advertise_prefixes` (the mutation of the
shared `TenantContext` object is modelled by rewriting the map entry). -/
def advertise_prefixes (d : VPNv4RouteDriver) (ns : String) (prefixes : List String) :
    Except String TenantContext × VPNv4RouteDriver × Bool :=
  match ensure_namespace d ns with
  | (Except.error e, d') => (Except.error e, d', false)
  | (Except.ok t, d') =>
    let t' := t.add_prefixes prefixes
    (Except.ok t', render { d' with tenants := dictInsert d'.tenants ns t' }, true)

/-- Embeds `VPNv4RouteDriver.withdraw_prefixes`. -/
def withdraw_prefixes (d : VPNv4RouteDriver) (ns : String) (prefixes : List String) :
    Option TenantContext × VPNv4RouteDriver × Bool :=
  match lookupA d.tenants ns with
  | none => (none, d, false)
  | some t =>
    let t' := t.withdraw_prefixes prefixes
    (some t', render { d with tenants := dictInsert d.tenants ns t' }, true)

/-- Embeds `VPNv4RouteDriver.synchronize_prefixes`: ensure the namespace,
de-duplicate the desired list, skip (without re-rendering) when it equals
the stored list, otherwise replace the stored list (via the spec-modelled
`TenantContext.set_prefixes`) and re-render. -/
def synchronize_prefixes (d : VPNv4RouteDriver) (ns : String) (prefixes : List String) :
    Except String TenantContext × VPNv4RouteDriver × Bool :=
  match ensure_namespace d ns with
  | (Except.error e, d') => (Except.error e, d', false)
  | (Except.ok t, d') =>
    let desired := pyDedup prefixes
    if t.advertised_prefixes = desired then (Except.ok t, d', false)
    else
      let t' := t.set_prefixes desired
      (Except.ok t', render { d' with tenants := dictInsert d'.tenants ns t' }, true)

/-- Embeds `VPNv4RouteDriver.get_rendered_config`. -/
def get_rendered_config (d : VPNv4RouteDriver) : Option String := d.lastRender

end VPNv4RouteDriver

/-! ## Network-directive line classification -/

/-- Character prefix of a rendered network-advertisement directive. -/
def netDirectiveChars : List Char := "  network ".data

/-- Recognizes a `network <prefix>` directive line of a VRF block (the
block writes these with a two-space indent). -/
def isNetworkLine (l : String) : Bool := decide (l.data.take 10 = netDirectiveChars)

/-- Spec-side rendering order (for the refinement comparison of the render
section layout, with the separator amended to the single newline the code
uses): sections in order header+neighbours (only with global sections), one
VRF block per tenant in tenant-list order, the route-map stanzas (when any
neighbour is configured), and a terminal `line vty` stanza only with global
sections; non-empty sections joined by a newline. -/
def renderSpecOrder (cfg : GlobalConfig) (includeGlobals : Bool)
    (tenants : List TenantContext) : String :=
  let sections :=
    (if includeGlobals then [FRR_HEADER, renderNeighbors cfg] else [])
    ++ tenants.map (fun t => renderBgpVrfBlock cfg t.vrf t.advertised_prefixes)
    ++ (if cfg.neighbours.map Neighbor.address = [] then [] else [renderRouteMaps])
    ++ (if includeGlobals then ["line vty", "!"] else [])
  joinSep "\n" (sections.filter (fun s => s != ""))

/-- Spec-side rendering exactly as the claim words it, with *blank-line*
separation between the non-empty sections (used only to exhibit that the
code does not do this). -/
def renderSpecOrderBlankSep (cfg : GlobalConfig) (includeGlobals : Bool)
    (tenants : List TenantContext) : String :=
  let sections :=
    (if includeGlobals then [FRR_HEADER, renderNeighbors cfg] else [])
    ++ tenants.map (fun t => renderBgpVrfBlock cfg t.vrf t.advertised_prefixes)
    ++ (if cfg.neighbours.map Neighbor.address = [] then [] else [renderRouteMaps])
    ++ (if includeGlobals then ["line vty", "!"] else [])
  joinSep "\n\n" (sections.filter (fun s => s != ""))

/-! ## Concrete fixtures used by closed witness and counterexample theorems -/

/-- Fixture: minimal global configuration with no neighbours. -/
def cfgW : GlobalConfig := ⟨1, "r", 1, 1, [], 0, false⟩

/-- Fixture: VRF for the tenant of `drvW`. -/
def vrfW : VRFDefinition := ⟨"a", "1:0", ["1:0"], ["1:0"], 0⟩

/-- Fixture: tenant context with no advertised prefixes. -/
def tenW : TenantContext := ⟨"a", vrfW, []⟩

/-- Fixture: allocator state holding the allocation for tenant `a`. -/
def allocW : DeterministicAllocator :=
  ⟨1, 1, 3, [("a", ⟨"1:0", "1:0", "1:0"⟩)], [(0, "a")], fun _ => 0⟩

/-- Fixture: driver tracking the single tenant `a`. -/
def drvW : VPNv4RouteDriver := ⟨cfgW, false, allocW, [("a", tenW)], none⟩

/-- Fixture: driver with a recorded previous render and no tenant `ghost`. -/
def drvPrev : VPNv4RouteDriver := ⟨cfgW, false, allocW, [("a", tenW)], some "prev"⟩

/-- Fixture: empty driver whose digest function is constantly 7. -/
def drvFresh : VPNv4RouteDriver := ⟨cfgW, false, ⟨1, 1, 9, [], [], fun _ => 7⟩, [], none⟩

/-- Fixture: tenant created by `drvFresh` for namespace `b`. -/
def tenFresh : TenantContext := ⟨"b", ⟨"b", "1:7", ["1:7"], ["1:7"], 0⟩, []⟩

/-- Fixture: `drvFresh` after `synchronize_prefixes "b" []` (tenant created,
nothing rendered). -/
def drvFresh1 : VPNv4RouteDriver :=
  ⟨cfgW, false, ⟨1, 1, 9, [("b", ⟨"1:7", "1:7", "1:7"⟩)], [(7, "b")], fun _ => 7⟩,
    [("b", tenFresh)], none⟩

/-- Fixture: empty allocator whose digest function is constantly 3. -/
def allocSeed : DeterministicAllocator := DeterministicAllocator.init 1 1 5 (fun _ => 3)

/-- Fixture: allocator with identifier space of size 2 fully occupied by
tenants `a` and `b`. -/
def allocFull : DeterministicAllocator :=
  ⟨1, 1, 2, [("a", ⟨"1:0", "1:0", "1:0"⟩), ("b", ⟨"1:1", "1:1", "1:1"⟩)],
    [(0, "a"), (1, "b")], fun _ => 0⟩

/-- Fixture: driver whose allocator space is exhausted. -/
def drvFull : VPNv4RouteDriver := ⟨cfgW, false, allocFull, [], none⟩

/-- Fixture: neighbour configured without the VPNV4 family. -/
def nbrNoV4 : Neighbor := ⟨"192.0.2.1", 1, [], none⟩

/-- Fixture: neighbour configured with the VPNV4 family only. -/
def nbrV4 : Neighbor := ⟨"192.0.2.1", 1, [AddressFamily.VPNV4], none⟩

/-- Fixture: configuration with one VPNV4 neighbour. -/
def cfgC8 : GlobalConfig := ⟨1, "r", 1, 1, [⟨"9.9.9.9", 2, [AddressFamily.VPNV4], none⟩], 0, false⟩

/-- Fixture: tenant for the render-order counterexample. -/
def tenC8 : TenantContext := ⟨"t", ⟨"t", "1:0", ["1:0"], ["1:0"], 0⟩, []⟩

/-! ## Lemmas and claim theorems -/

theorem lookupA_dictInsert_self {α β : Type} [DecidableEq α]
    (l : List (α × β)) (k : α) (v : β) : lookupA (dictInsert l k v) k = some v := by
  induction l with
  | nil => simp [dictInsert, lookupA]
  | cons hd tl ih =>
    obtain ⟨k', v'⟩ := hd
    by_cases h : k' = k
    · simp [dictInsert, lookupA, h]
    · simp [dictInsert, lookupA, h, ih]

theorem lookupA_dictInsert_ne {α β : Type} [DecidableEq α]
    (l : List (α × β)) (k k' : α) (v : β) (h : k' ≠ k) :
    lookupA (dictInsert l k v) k' = lookupA l k' := by
  induction l with
  | nil =>
    simp only [dictInsert, lookupA]
    rw [if_neg (fun e => h (Eq.symm e))]
  | cons hd tl ih =>
    obtain ⟨k₀, v₀⟩ := hd
    by_cases h₀ : k₀ = k
    · subst h₀
      simp only [dictInsert, if_pos rfl, lookupA]
      rw [if_neg (fun e => h (Eq.symm e)), if_neg (fun e => h (Eq.symm e))]
    · simp only [dictInsert, if_neg h₀, lookupA]
      by_cases h₁ : k₀ = k'
      · simp [h₁]
      · simp [h₁, ih]

theorem lookupA_eq_none_iff {α β : Type} [DecidableEq α]
    (l : List (α × β)) (k : α) : lookupA l k = none ↔ k ∉ l.map Prod.fst := by
  induction l with
  | nil => simp [lookupA]
  | cons hd tl ih =>
    obtain ⟨k', v'⟩ := hd
    by_cases h : k' = k
    · simp [lookupA, h]
    · simp only [lookupA, if_neg h, List.map_cons, List.mem_cons]
      rw [ih]
      constructor
      · intro hk
        rw [not_or]
        exact ⟨fun e => h (Eq.symm e), hk⟩
      · intro hk
        rw [not_or] at hk
        exact hk.2

theorem lookupA_mem_of_eq_some {α β : Type} [DecidableEq α]
    {l : List (α × β)} {k : α} {v : β} (h : lookupA l k = some v) : (k, v) ∈ l := by
  induction l with
  | nil => simp [lookupA] at h
  | cons hd tl ih =>
    obtain ⟨k', v'⟩ := hd
    by_cases h₀ : k' = k
    · subst h₀
      simp [lookupA] at h
      simp [h]
    · simp [lookupA, h₀] at h
      exact List.mem_cons_of_mem _ (ih h)

theorem dictInsert_eq_append_of_not_mem {α β : Type} [DecidableEq α]
    {l : List (α × β)} {k : α} (v : β) (h : k ∉ l.map Prod.fst) :
    dictInsert l k v = l ++ [(k, v)] := by
  induction l with
  | nil => simp [dictInsert]
  | cons hd tl ih =>
    obtain ⟨k', v'⟩ := hd
    simp only [List.map_cons, List.mem_cons] at h
    push_neg at h
    simp only [dictInsert, if_neg (fun e => h.1 (Eq.symm e)), List.cons_append,
      List.cons.injEq, true_and]
    exact ih h.2

theorem pyDedupAux_nodup_and_fresh :
    ∀ (l seen : List String),
      (pyDedupAux seen l).Nodup ∧ ∀ a ∈ pyDedupAux seen l, a ∉ seen
  | [], seen => by simp [pyDedupAux]
  | p :: rest, seen => by
    rw [pyDedupAux]
    by_cases hp : p ∈ seen
    · rw [if_pos hp]
      exact pyDedupAux_nodup_and_fresh rest seen
    · rw [if_neg hp]
      obtain ⟨hnd, hfresh⟩ := pyDedupAux_nodup_and_fresh rest (p :: seen)
      refine ⟨List.nodup_cons.mpr ⟨fun hmem => ?_, hnd⟩, ?_⟩
      · exact hfresh p hmem (List.mem_cons_self p seen)
      · intro a ha
        rcases List.mem_cons.mp ha with ha | ha
        · exact ha ▸ hp
        · exact fun hseen => hfresh a ha (List.mem_cons_of_mem _ hseen)

theorem pyDedup_nodup (l : List String) : (pyDedup l).Nodup :=
  (pyDedupAux_nodup_and_fresh l []).1

theorem pyDedupAux_eq_self :
    ∀ {l seen : List String}, l.Nodup → (∀ a ∈ l, a ∉ seen) → pyDedupAux seen l = l
  | [], seen, _, _ => by simp [pyDedupAux]
  | p :: rest, seen, h, hfresh => by
    rw [pyDedupAux, if_neg (hfresh p (List.mem_cons_self p rest))]
    rcases List.nodup_cons.mp h with ⟨hp, hrest⟩
    refine congrArg (p :: ·) (pyDedupAux_eq_self hrest ?_)
    intro a ha
    intro hmem
    rcases List.mem_cons.mp hmem with hmem | hmem
    · exact hp (hmem ▸ ha)
    · exact hfresh a (List.mem_cons_of_mem _ ha) hmem

theorem pyDedup_eq_self_of_nodup {l : List String} (h : l.Nodup) : pyDedup l = l :=
  pyDedupAux_eq_self h (by simp)

theorem pyDedup_idem (l : List String) : pyDedup (pyDedup l) = pyDedup l :=
  pyDedup_eq_self_of_nodup (pyDedup_nodup l)

/-! ## String and join lemmas -/

theorem string_eq_empty_iff (s : String) : s = "" ↔ s.data = [] :=
  ⟨fun h => h ▸ rfl, fun h => String.ext h⟩

theorem append_ne_empty_left {s : String} (t : String) (h : s ≠ "") : s ++ t ≠ "" := by
  intro e
  apply h
  rw [string_eq_empty_iff] at e ⊢
  rw [String.data_append] at e
  exact (List.append_eq_nil.mp e).1

theorem string_ne_append_left {s fixed : String} (rest : String) (k : Nat)
    (hk : k ≤ fixed.data.length) (h : s.data.take k ≠ fixed.data.take k) :
    s ≠ fixed ++ rest := by
  intro e
  apply h
  rw [e, String.data_append, List.take_append_eq_append_take, Nat.sub_eq_zero_of_le hk,
    List.take_zero, List.append_nil]

theorem joinSep_ne_empty (sep : String) (l : List String) (x : String) (xs : List String)
    (hl : l = x :: xs) (hx : x ≠ "") : joinSep sep l ≠ "" := by
  subst hl
  cases xs with
  | nil => simpa [joinSep] using hx
  | cons y ys => exact append_ne_empty_left _ (append_ne_empty_left _ hx)

theorem joinSep_append (sep : String) :
    ∀ (xs ys : List String), xs ≠ [] → ys ≠ [] →
      joinSep sep (xs ++ ys) = joinSep sep xs ++ sep ++ joinSep sep ys
  | [], _, hx, _ => absurd rfl hx
  | [x], ys, _, hy => by
    cases ys with
    | nil => exact absurd rfl hy
    | cons y ys' => simp [joinSep]
  | x :: x' :: xs', ys, _, hy => by
    have ih := joinSep_append sep (x' :: xs') ys (by simp) hy
    calc joinSep sep ((x :: x' :: xs') ++ ys)
        = x ++ sep ++ joinSep sep ((x' :: xs') ++ ys) := rfl
      _ = x ++ sep ++ (joinSep sep (x' :: xs') ++ sep ++ joinSep sep ys) := by rw [ih]
      _ = (x ++ sep ++ joinSep sep (x' :: xs')) ++ sep ++ joinSep sep ys := by
            simp [String.append_assoc]
      _ = joinSep sep (x :: x' :: xs') ++ sep ++ joinSep sep ys := rfl

theorem joinSep_middle (sep : String) (A B blocks : List String) (hb : blocks ≠ []) :
    joinSep sep (A ++ [joinSep sep blocks] ++ B) = joinSep sep (A ++ blocks ++ B) := by
  by_cases hA : A = []
  · subst hA
    by_cases hB : B = []
    · subst hB
      simp [joinSep]
    · simp only [List.nil_append]
      rw [joinSep_append sep [joinSep sep blocks] B (by simp) hB,
        joinSep_append sep blocks B hb hB]
      simp [joinSep]
  · by_cases hB : B = []
    · subst hB
      simp only [List.append_nil]
      rw [joinSep_append sep A [joinSep sep blocks] hA (by simp),
        joinSep_append sep A blocks hA hb]
      simp [joinSep]
    · rw [List.append_assoc, List.append_assoc,
        joinSep_append sep A ([joinSep sep blocks] ++ B) hA (by simp),
        joinSep_append sep A (blocks ++ B) hA (by simp [hb]),
        joinSep_append sep [joinSep sep blocks] B (by simp) hB,
        joinSep_append sep blocks B hb hB]
      simp [joinSep, String.append_assoc]

theorem isNetworkLine_netLine (p : String) : isNetworkLine ("  network " ++ p) = true := by
  simp only [isNetworkLine, String.data_append, decide_eq_true_eq]
  rw [List.take_append_eq_append_take]
  norm_num [netDirectiveChars]

theorem isNetworkLine_append_false {s : String} (t : String)
    (h₁ : isNetworkLine s = false) (h₂ : 10 ≤ s.data.length) :
    isNetworkLine (s ++ t) = false := by
  simp only [isNetworkLine, String.data_append, decide_eq_false_iff_not] at h₁ ⊢
  rw [List.take_append_eq_append_take, Nat.sub_eq_zero_of_le h₂, List.take_zero,
    List.append_nil]
  exact h₁

/-! ## Allocator lemmas -/

namespace DeterministicAllocator

theorem probe_some_not_occupied {rev : List (Nat × String)} {ns : String} {m start : Nat}
    {cand : Nat} :
    ∀ (fuel c : Nat), probe rev ns m start c fuel = some cand →
      occupiedByOther rev ns cand = false := by
  intro fuel
  induction fuel with
  | zero => intro c h; simp [probe] at h
  | succ f ih =>
    intro c h
    rw [probe] at h
    by_cases hocc : occupiedByOther rev ns c = true
    · rw [if_pos hocc] at h
      by_cases hnext : (c + 1) % m = start
      · rw [if_pos hnext] at h
        exact absurd h (by simp)
      · rw [if_neg hnext] at h
        exact ih _ h
    · rw [if_neg hocc] at h
      cases h
      exact Bool.not_eq_true _ ▸ (by simpa using hocc)

theorem probe_fuel_aux (rev : List (Nat × String)) (ns : String) (m start : Nat)
    (hs : start < m) :
    ∀ (fuel k c : Nat), 0 < fuel → fuel ≤ m →
      c = (start + (m - fuel)) % m →
      probe rev ns m start c (k + fuel) = probe rev ns m start c fuel
  | 0, _, _, h, _, _ => absurd h (by simp)
  | f + 1, k, c, _, hle, hc => by
    show probe rev ns m start c (k + f + 1) = probe rev ns m start c (f + 1)
    simp only [probe]
    by_cases hocc : occupiedByOther rev ns c = true
    · rw [if_pos hocc, if_pos hocc]
      have hstep : (c + 1) % m = (start + (m - f)) % m := by
        rw [hc, Nat.mod_add_mod]
        congr 1
        omega
      by_cases hn : (c + 1) % m = start
      · rw [if_pos hn, if_pos hn]
      · rw [if_neg hn, if_neg hn]
        have hf : 0 < f := by
          rcases Nat.eq_zero_or_pos f with hf0 | hf
          · exfalso
            apply hn
            rw [hstep, hf0, Nat.sub_zero, Nat.add_mod_right]
            exact Nat.mod_eq_of_lt hs
          · exact hf
        exact probe_fuel_aux rev ns m start hs f k _ hf
          (Nat.le_of_succ_le hle) hstep
    · rw [if_neg hocc, if_neg hocc]

/-- With `0 < m` and `start < m` — exactly how `allocate` calls the loop —
the fuel `m` is never exhausted: extra fuel changes nothing, because the
cyclic-scan check `next = start` fires after at most `m - 1` steps.  The
fueled `probe` with fuel `m` therefore computes precisely the source's
unbounded `while` loop. -/
theorem probe_fuel_unreachable (rev : List (Nat × String)) (ns : String) (m start : Nat)
    (hm : 0 < m) (hs : start < m) (k : Nat) :
    probe rev ns m start start (k + m) = probe rev ns m start start m :=
  probe_fuel_aux rev ns m start hs m k start hm (Nat.le_refl m)
    (by rw [Nat.sub_self, Nat.add_zero, Nat.mod_eq_of_lt hs])

theorem probe_none_of_all_occupied {rev : List (Nat × String)} {ns : String} {m start : Nat}
    (hm : 0 < m) (hall : ∀ i, i < m → occupiedByOther rev ns i = true) :
    ∀ (fuel c : Nat), c < m → probe rev ns m start c fuel = none := by
  intro fuel
  induction fuel with
  | zero => intro c _; rfl
  | succ f ih =>
    intro c hc
    rw [probe, if_pos (hall c hc)]
    by_cases hnext : (c + 1) % m = start
    · rw [if_pos hnext]
    · rw [if_neg hnext]
      exact ih _ (Nat.mod_lt _ hm)

theorem AllocInv_extend {s : DeterministicAllocator} (a : Allocation) (ns : String)
    (cand : Nat) (h : AllocInv s) (h1 : ns ∉ s.registry.map Prod.fst)
    (h2 : cand ∉ s.reverse.map Prod.fst) (h3 : ns ∉ s.reverse.map Prod.snd) :
    AllocInv { s with registry := dictInsert s.registry ns a
                      reverse := dictInsert s.reverse cand ns } := by
  obtain ⟨hrk, hrv, hgk, hgr, hrg⟩ := h
  unfold AllocInv
  dsimp only
  rw [dictInsert_eq_append_of_not_mem _ h1, dictInsert_eq_append_of_not_mem _ h2]
  refine ⟨?_, ?_, ?_, ?_, ?_⟩
  · rw [List.map_append, List.nodup_append]
    exact ⟨hrk, by simp, by simpa using fun hmem => h2 hmem⟩
  · rw [List.map_append, List.nodup_append]
    exact ⟨hrv, by simp, by simpa using fun hmem => h3 hmem⟩
  · rw [List.map_append, List.nodup_append]
    exact ⟨hgk, by simp, by simpa using fun hmem => h1 hmem⟩
  · intro n hn
    rw [List.map_append, List.mem_append] at hn ⊢
    rcases hn with hn | hn
    · exact Or.inl (hgr n hn)
    · simp at hn
      simp [hn]
  · intro n hn
    rw [List.map_append, List.mem_append] at hn ⊢
    rcases hn with hn | hn
    · exact Or.inl (hrg n hn)
    · simp at hn
      simp [hn]

theorem allocate_preserves_AllocInv (s : DeterministicAllocator) (ns : String)
    (h : AllocInv s) : AllocInv (allocate s ns).2 := by
  cases hreg : lookupA s.registry ns with
  | some a =>
    simp only [allocate, hreg]
    exact h
  | none =>
    cases hp : probe s.reverse ns s.max_id (s.hash_namespace ns % s.max_id)
        (s.hash_namespace ns % s.max_id) s.max_id with
    | none =>
      simp only [allocate, hreg, hp]
      exact h
    | some cand =>
      have hnsreg : ns ∉ s.registry.map Prod.fst := (lookupA_eq_none_iff _ _).mp hreg
      have hnsrev : ns ∉ s.reverse.map Prod.snd := fun hmem => hnsreg (h.2.2.2.2 ns hmem)
      have hocc : occupiedByOther s.reverse ns cand = false :=
        probe_some_not_occupied _ _ hp
      have hcand : lookupA s.reverse cand = none := by
        cases hlp : lookupA s.reverse cand with
        | none => rfl
        | some owner =>
          rw [occupiedByOther, hlp] at hocc
          have howner : owner = ns := by simpa using hocc
          subst howner
          exact absurd (List.mem_map.mpr ⟨(cand, owner), lookupA_mem_of_eq_some hlp, rfl⟩)
            hnsrev
      have hcandk : cand ∉ s.reverse.map Prod.fst := (lookupA_eq_none_iff _ _).mp hcand
      simp only [allocate, hreg, hp]
      exact AllocInv_extend _ ns cand h hnsreg hcandk hnsrev

theorem eq_snd_of_nodup_keys {α β : Type} {l : List (α × β)}
    (h : (l.map Prod.fst).Nodup) {i : α} {a b : β}
    (ha : (i, a) ∈ l) (hb : (i, b) ∈ l) : a = b := by
  induction l with
  | nil => simp at ha
  | cons hd tl ih =>
    obtain ⟨k, v⟩ := hd
    rw [List.map_cons, List.nodup_cons] at h
    rcases List.mem_cons.mp ha with ha' | ha'
    · rcases List.mem_cons.mp hb with hb' | hb'
      · rw [Prod.mk.injEq] at ha' hb'
        rw [ha'.2, hb'.2]
      · exfalso
        rw [Prod.mk.injEq] at ha'
        exact h.1 (List.mem_map.mpr ⟨(i, b), hb', ha'.1⟩)
    · rcases List.mem_cons.mp hb with hb' | hb'
      · exfalso
        rw [Prod.mk.injEq] at hb'
        exact h.1 (List.mem_map.mpr ⟨(i, a), ha', hb'.1⟩)
      · exact ih h.2 ha' hb'

theorem allocate_of_registry_some {s : DeterministicAllocator} {ns : String} {a : Allocation}
    (h : lookupA s.registry ns = some a) : allocate s ns = (some a, s) := by
  unfold allocate
  rw [h]

theorem allocate_registry_lookup_self {s : DeterministicAllocator} {ns : String}
    {a : Allocation} (h : (allocate s ns).1 = some a) :
    lookupA ((allocate s ns).2).registry ns = some a := by
  cases hreg : lookupA s.registry ns with
  | some a' =>
    simp only [allocate, hreg] at h ⊢
    exact h
  | none =>
    cases hp : probe s.reverse ns s.max_id (s.hash_namespace ns % s.max_id)
        (s.hash_namespace ns % s.max_id) s.max_id with
    | none =>
      simp [allocate, hreg, hp] at h
    | some cand =>
      simp only [allocate, hreg, hp] at h ⊢
      rw [lookupA_dictInsert_self]
      exact h

theorem allocate_preserves_registry_lookup {s : DeterministicAllocator} {n : String}
    {a : Allocation} (ns' : String) (h : lookupA s.registry n = some a) :
    lookupA ((allocate s ns').2).registry n = some a := by
  cases hreg : lookupA s.registry ns' with
  | some a' =>
    simp only [allocate, hreg]
    exact h
  | none =>
    cases hp : probe s.reverse ns' s.max_id (s.hash_namespace ns' % s.max_id)
        (s.hash_namespace ns' % s.max_id) s.max_id with
    | none =>
      simp only [allocate, hreg, hp]
      exact h
    | some cand =>
      have hne : n ≠ ns' := by
        intro e
        rw [e, hreg] at h
        cases h
      simp only [allocate, hreg, hp]
      rw [lookupA_dictInsert_ne _ _ _ _ hne]
      exact h

theorem allocateMany_preserves_registry_lookup {n : String} {a : Allocation} :
    ∀ (ms : List String) (s : DeterministicAllocator),
      lookupA s.registry n = some a →
      lookupA (allocateMany s ms).registry n = some a
  | [], _s, h => h
  | ns' :: rest, _s, h =>
    allocateMany_preserves_registry_lookup rest _
      (allocate_preserves_registry_lookup ns' h)

end DeterministicAllocator

/-! ## Driver lemmas -/

namespace VPNv4RouteDriver

theorem ensure_namespace_of_found {d : VPNv4RouteDriver} {ns : String} {t : TenantContext}
    (h : lookupA d.tenants ns = some t) : ensure_namespace d ns = (Except.ok t, d) := by
  simp only [ensure_namespace, h]

theorem ensure_namespace_ok_lookup {d : VPNv4RouteDriver} {ns : String} {t : TenantContext}
    {d' : VPNv4RouteDriver} (h : ensure_namespace d ns = (Except.ok t, d')) :
    lookupA d'.tenants ns = some t := by
  cases hl : lookupA d.tenants ns with
  | some t0 =>
    rw [ensure_namespace_of_found hl] at h
    rw [Prod.mk.injEq] at h
    obtain ⟨h1, h2⟩ := h
    rw [Except.ok.injEq] at h1
    rw [← h2, hl, h1]
  | none =>
    rcases hA : DeterministicAllocator.allocate d.alloc ns with ⟨o, a2⟩
    cases o with
    | none =>
      simp only [ensure_namespace, hl, hA] at h
      rw [Prod.mk.injEq] at h
      exact absurd h.1 (by simp)
    | some al =>
      simp only [ensure_namespace, hl, hA] at h
      rw [Prod.mk.injEq] at h
      obtain ⟨h1, h2⟩ := h
      rw [Except.ok.injEq] at h1
      rw [← h2, ← h1]
      exact lookupA_dictInsert_self _ _ _

theorem synchronize_ok_state {d : VPNv4RouteDriver} {ns : String} {ps : List String}
    {t₁ : TenantContext} {d₁ : VPNv4RouteDriver} {b₁ : Bool}
    (h : synchronize_prefixes d ns ps = (Except.ok t₁, d₁, b₁)) :
    lookupA d₁.tenants ns = some t₁ ∧ t₁.advertised_prefixes = pyDedup ps := by
  rcases hE : ensure_namespace d ns with ⟨et, d'⟩
  cases et with
  | error e =>
    simp only [synchronize_prefixes, hE] at h
    rw [Prod.mk.injEq] at h
    exact absurd h.1 (by simp)
  | ok t =>
    simp only [synchronize_prefixes, hE] at h
    by_cases hEq : t.advertised_prefixes = pyDedup ps
    · rw [if_pos hEq] at h
      rw [Prod.mk.injEq, Prod.mk.injEq] at h
      obtain ⟨h1, h2, _⟩ := h
      rw [Except.ok.injEq] at h1
      subst h1
      subst h2
      exact ⟨ensure_namespace_ok_lookup hE, hEq⟩
    · rw [if_neg hEq] at h
      rw [Prod.mk.injEq, Prod.mk.injEq] at h
      obtain ⟨h1, h2, _⟩ := h
      rw [Except.ok.injEq] at h1
      subst h1
      subst h2
      constructor
      · show lookupA (VPNv4RouteDriver.render _).tenants ns = _
        simp only [render]
        exact lookupA_dictInsert_self _ _ _
      · show (TenantContext.set_prefixes t (pyDedup ps)).advertised_prefixes = pyDedup ps
        simp only [TenantContext.set_prefixes]
        exact pyDedup_idem ps

end VPNv4RouteDriver

/-! ## Claim theorems -/

/-- C1: for every namespace whose de-duplicated desired prefix list differs
from the list currently stored in its `TenantContext`,
`synchronize_prefixes` succeeds, returns a tenant whose prefix list is the
de-duplicated desired list, stores that list for the namespace, and
triggers a re-render (the render flag is set and the driver records the
freshly rendered text of the updated tenant set). -/
theorem synchronize_prefixes_replaces_and_rerenders
    (d : VPNv4RouteDriver) (ns : String) (ps : List String) (t : TenantContext)
    (hfound : lookupA d.tenants ns = some t)
    (hdiff : t.advertised_prefixes ≠ pyDedup ps) :
    Except.map TenantContext.advertised_prefixes
        (VPNv4RouteDriver.synchronize_prefixes d ns ps).1 = Except.ok (pyDedup ps) ∧
    (lookupA (VPNv4RouteDriver.synchronize_prefixes d ns ps).2.1.tenants ns).map
        TenantContext.advertised_prefixes = some (pyDedup ps) ∧
    (VPNv4RouteDriver.synchronize_prefixes d ns ps).2.2 = true ∧
    (VPNv4RouteDriver.synchronize_prefixes d ns ps).2.1.lastRender =
      some (renderBody d.config d.includeGlobals
        ((VPNv4RouteDriver.synchronize_prefixes d ns ps).2.1.tenants.map Prod.snd)) := by
  have hE := VPNv4RouteDriver.ensure_namespace_of_found hfound
  have hstep : VPNv4RouteDriver.synchronize_prefixes d ns ps =
      (Except.ok (t.set_prefixes (pyDedup ps)),
       VPNv4RouteDriver.render
         { d with tenants := dictInsert d.tenants ns (t.set_prefixes (pyDedup ps)) },
       true) := by
    simp only [VPNv4RouteDriver.synchronize_prefixes, hE]
    rw [if_neg hdiff]
  rw [hstep]
  refine ⟨?_, ?_, rfl, ?_⟩
  · simp [Except.map, TenantContext.set_prefixes, pyDedup_idem]
  · simp only [VPNv4RouteDriver.render]
    rw [lookupA_dictInsert_self]
    simp [TenantContext.set_prefixes, pyDedup_idem]
  · simp [VPNv4RouteDriver.render]

/-- C1 witness: applying the theorem to the fixture driver `drvW`, whose
tenant `a` stores no prefixes, with desired list `["10.0.0.0/24"]`. -/
theorem synchronize_prefixes_replaces_and_rerenders_witness :
    Except.map TenantContext.advertised_prefixes
        (VPNv4RouteDriver.synchronize_prefixes drvW "a" ["10.0.0.0/24"]).1 =
      Except.ok (pyDedup ["10.0.0.0/24"]) ∧
    (lookupA (VPNv4RouteDriver.synchronize_prefixes drvW "a" ["10.0.0.0/24"]).2.1.tenants
        "a").map TenantContext.advertised_prefixes = some (pyDedup ["10.0.0.0/24"]) ∧
    (VPNv4RouteDriver.synchronize_prefixes drvW "a" ["10.0.0.0/24"]).2.2 = true ∧
    (VPNv4RouteDriver.synchronize_prefixes drvW "a" ["10.0.0.0/24"]).2.1.lastRender =
      some (renderBody drvW.config drvW.includeGlobals
        ((VPNv4RouteDriver.synchronize_prefixes drvW "a" ["10.0.0.0/24"]).2.1.tenants.map
          Prod.snd)) :=
  synchronize_prefixes_replaces_and_rerenders drvW "a" ["10.0.0.0/24"] tenW
    (by rfl) (by decide)

/-- C3: if a `synchronize_prefixes` call succeeds, an immediately repeated
call with the same prefix list returns the same tenant, leaves the whole
driver state (including the last rendered result) unchanged and does not
re-render. -/
theorem synchronize_prefixes_idempotent_second_call
    (d : VPNv4RouteDriver) (ns : String) (ps : List String) (t₁ : TenantContext)
    (d₁ : VPNv4RouteDriver) (b₁ : Bool)
    (h : VPNv4RouteDriver.synchronize_prefixes d ns ps = (Except.ok t₁, d₁, b₁)) :
    VPNv4RouteDriver.synchronize_prefixes d₁ ns ps = (Except.ok t₁, d₁, false) := by
  obtain ⟨hlook, hadv⟩ := VPNv4RouteDriver.synchronize_ok_state h
  simp only [VPNv4RouteDriver.synchronize_prefixes,
    VPNv4RouteDriver.ensure_namespace_of_found hlook, if_pos hadv]

/-- C3 witness: `drvFresh1` is the state after `synchronize_prefixes
drvFresh "b" []`; the repeated call returns the same tenant and state
without rendering. -/
theorem synchronize_prefixes_idempotent_second_call_witness :
    VPNv4RouteDriver.synchronize_prefixes drvFresh1 "b" [] =
      (Except.ok tenFresh, drvFresh1, false) :=
  synchronize_prefixes_idempotent_second_call drvFresh "b" [] tenFresh drvFresh1 false
    (by rfl)

/-- C10: withdrawing a namespace unknown to the driver returns `none` and
is a complete no-op: the driver state (tenant map, allocator, last
rendered result) is returned unchanged and no render is triggered. -/
theorem withdraw_namespace_unknown_is_noop
    (d : VPNv4RouteDriver) (ns : String) (h : lookupA d.tenants ns = none) :
    VPNv4RouteDriver.withdraw_namespace d ns = (none, d, false) := by
  simp only [VPNv4RouteDriver.withdraw_namespace, h]

/-- C10 witness: withdrawing the unknown namespace `ghost` from `drvPrev`
(which retains a previous render) changes nothing. -/
theorem withdraw_namespace_unknown_is_noop_witness :
    VPNv4RouteDriver.withdraw_namespace drvPrev "ghost" = (none, drvPrev, false) :=
  withdraw_namespace_unknown_is_noop drvPrev "ghost" (by rfl)

/-- C4: the allocator invariant — each live namespace carries exactly one
identifier and each identifier at most one namespace (a bijection over the
currently-allocated entries) — holds for a fresh instance and is preserved
by every `allocate` call, and under it two distinct allocated namespaces
always have distinct integer identifiers. -/
theorem allocator_identifier_bijection :
    (∀ (rdBase rtBase maxId : Nat) (h : String → Nat),
        DeterministicAllocator.AllocInv (DeterministicAllocator.init rdBase rtBase maxId h)) ∧
    (∀ (s : DeterministicAllocator) (ns : String),
        DeterministicAllocator.AllocInv s →
        DeterministicAllocator.AllocInv (DeterministicAllocator.allocate s ns).2) ∧
    (∀ (s : DeterministicAllocator) (i₁ i₂ : Nat) (n₁ n₂ : String),
        DeterministicAllocator.AllocInv s →
        (i₁, n₁) ∈ s.reverse → (i₂, n₂) ∈ s.reverse → n₁ ≠ n₂ → i₁ ≠ i₂) := by
  refine ⟨?_, ?_, ?_⟩
  · intro rdBase rtBase maxId h
    simp [DeterministicAllocator.init, DeterministicAllocator.AllocInv]
  · exact DeterministicAllocator.allocate_preserves_AllocInv
  · intro s i₁ i₂ n₁ n₂ hinv h1 h2 hne he
    subst he
    exact hne (DeterministicAllocator.eq_snd_of_nodup_keys hinv.1 h1 h2)

/-- C4 witness: the invariant holds after allocating `b` against the
fixture `allocW`, and in the fully-occupied fixture `allocFull` the
distinct tenants `a` and `b` have the distinct identifiers 0 and 1. -/
theorem allocator_identifier_bijection_witness :
    DeterministicAllocator.AllocInv (DeterministicAllocator.allocate allocW "b").2 ∧
    (0 : Nat) ≠ 1 :=
  ⟨allocator_identifier_bijection.2.1 allocW "b" (by decide),
   allocator_identifier_bijection.2.2 allocFull 0 1 "a" "b" (by decide) (by decide)
     (by decide) (by decide)⟩

/-- C5: `allocate` is idempotent per namespace: once `allocate n` has
returned an Allocation, any later `allocate n` on the same instance
returns the identical Allocation, regardless of the allocations performed
for other namespaces in between. -/
theorem allocate_idempotent_under_interleaving
    (s : DeterministicAllocator) (n : String) (a : Allocation) (ms : List String)
    (h : (DeterministicAllocator.allocate s n).1 = some a) :
    (DeterministicAllocator.allocate
        (DeterministicAllocator.allocateMany
          (DeterministicAllocator.allocate s n).2 ms) n).1 = some a := by
  have h1 := DeterministicAllocator.allocate_registry_lookup_self h
  have h2 := DeterministicAllocator.allocateMany_preserves_registry_lookup ms _ h1
  rw [DeterministicAllocator.allocate_of_registry_some h2]

/-- C5 witness: allocating `x` on the empty fixture `allocSeed`, then `y`
and `z`, then `x` again returns the original Allocation `1:3`. -/
theorem allocate_idempotent_under_interleaving_witness :
    (DeterministicAllocator.allocate
        (DeterministicAllocator.allocateMany
          (DeterministicAllocator.allocate allocSeed "x").2 ["y", "z"]) "x").1 =
      some ⟨"1:3", "1:3", "1:3"⟩ :=
  allocate_idempotent_under_interleaving allocSeed "x" ⟨"1:3", "1:3", "1:3"⟩ ["y", "z"]
    (by decide)

/-- C6: when the probe scans the whole identifier space without a free
slot, `allocate` terminates with the exhaustion failure and mutates
nothing: the allocator state is returned unchanged, an occupied-everywhere
space makes `allocate` fail, and `ensure_namespace` then propagates the
`RuntimeError` message while registering no tenant (driver state
unchanged). -/
theorem allocate_exhaustion_no_mutation :
    (∀ (s : DeterministicAllocator) (ns : String),
        (DeterministicAllocator.allocate s ns).1 = none →
        (DeterministicAllocator.allocate s ns).2 = s) ∧
    (∀ (s : DeterministicAllocator) (ns : String),
        0 < s.max_id → lookupA s.registry ns = none →
        (∀ i, i < s.max_id →
          DeterministicAllocator.occupiedByOther s.reverse ns i = true) →
        (DeterministicAllocator.allocate s ns).1 = none) ∧
    (∀ (d : VPNv4RouteDriver) (ns : String),
        lookupA d.tenants ns = none →
        (DeterministicAllocator.allocate d.alloc ns).1 = none →
        VPNv4RouteDriver.ensure_namespace d ns =
          (Except.error "Allocator exhausted identifier space", d)) := by
  refine ⟨?_, ?_, ?_⟩
  · intro s ns h
    cases hreg : lookupA s.registry ns with
    | some a => simp [DeterministicAllocator.allocate, hreg] at h
    | none =>
      cases hp : DeterministicAllocator.probe s.reverse ns s.max_id
          (s.hash_namespace ns % s.max_id) (s.hash_namespace ns % s.max_id) s.max_id with
      | none => simp [DeterministicAllocator.allocate, hreg, hp]
      | some cand => simp [DeterministicAllocator.allocate, hreg, hp] at h
  · intro s ns hm hreg hall
    have hp := @DeterministicAllocator.probe_none_of_all_occupied s.reverse ns s.max_id
      (s.hash_namespace ns % s.max_id) hm hall s.max_id
      (s.hash_namespace ns % s.max_id) (Nat.mod_lt _ hm)
    simp [DeterministicAllocator.allocate, hreg, hp]
  · intro d ns hl hA
    rcases hAp : DeterministicAllocator.allocate d.alloc ns with ⟨o, a2⟩
    rw [hAp] at hA
    simp only at hA
    subst hA
    simp [VPNv4RouteDriver.ensure_namespace, hl, hAp]

/-- C6 witness: in the fully-occupied fixture, allocating `c` fails with
exhaustion, leaves the allocator untouched and `ensure_namespace` on the
driver propagates the error without registering a tenant. -/
theorem allocate_exhaustion_no_mutation_witness :
    (DeterministicAllocator.allocate allocFull "c").1 = none ∧
    (DeterministicAllocator.allocate allocFull "c").2 = allocFull ∧
    VPNv4RouteDriver.ensure_namespace drvFull "c" =
      (Except.error "Allocator exhausted identifier space", drvFull) := by
  have h1 : (DeterministicAllocator.allocate allocFull "c").1 = none :=
    allocate_exhaustion_no_mutation.2.1 allocFull "c" (by decide) (by decide) (by decide)
  exact ⟨h1, allocate_exhaustion_no_mutation.1 allocFull "c" h1,
    allocate_exhaustion_no_mutation.2.2 drvFull "c" (by decide) h1⟩

/-- C2 (code-bug evaluation): a single `advertise_prefixes` batch that
repeats a prefix not yet stored appends it twice — `add_prefixes` filters
only against the list as it was before the batch — so `advertised_prefixes`
does contain duplicates, and a VRF block rendered from that tenant emits
the corresponding `network` line twice instead of once. -/
theorem add_prefixes_duplicate_batch_bug :
    (TenantContext.add_prefixes tenW ["10.244.0.0/24", "10.244.0.0/24"]).advertised_prefixes
      = ["10.244.0.0/24", "10.244.0.0/24"] ∧
    ¬ ((TenantContext.add_prefixes tenW
        ["10.244.0.0/24", "10.244.0.0/24"]).advertised_prefixes.Nodup) ∧
    (lookupA (VPNv4RouteDriver.advertise_prefixes drvW "a"
          ["10.244.0.0/24", "10.244.0.0/24"]).2.1.tenants "a").map
        TenantContext.advertised_prefixes = some ["10.244.0.0/24", "10.244.0.0/24"] ∧
    (renderBgpVrfBlockLines cfgW vrfW ["10.244.0.0/24", "10.244.0.0/24"]).count
        "  network 10.244.0.0/24" = 2 := by
  refine ⟨by decide, by decide, by decide, by decide⟩

/-- Helper: filtering a mapped list whose images all fail the predicate. -/
theorem filter_map_eq_nil {α : Type} (p : String → Bool) (f : α → String) (l : List α)
    (h : ∀ x, p (f x) = false) : List.filter p (l.map f) = [] := by
  induction l with
  | nil => rfl
  | cons a l ih => simp [List.filter, h a, ih]

/-- Helper: filtering a mapped list whose images all satisfy the predicate. -/
theorem filter_map_eq_self {α : Type} (p : String → Bool) (f : α → String) (l : List α)
    (h : ∀ x, p (f x) = true) : List.filter p (l.map f) = l.map f := by
  induction l with
  | nil => rfl
  | cons a l ih => simp [List.filter, h a, ih]

/-- C9: in every rendered VRF block, the network-directive lines are
exactly one `  network <prefix>` line per advertised prefix, in the
tenant's current prefix order (so none at all when the prefix list is
empty), and the placeholder comment `  ! no prefixes advertised yet`
appears if and only if the prefix list is empty (it is a comment, not a
directive, so the empty case is textually unambiguous). -/
theorem vrf_block_network_lines_and_placeholder
    (cfg : GlobalConfig) (vrf : VRFDefinition) (prefixes : List String) :
    (renderBgpVrfBlockLines cfg vrf prefixes).filter isNetworkLine =
      prefixes.map (fun p => "  network " ++ p) ∧
    ("  ! no prefixes advertised yet" ∈ renderBgpVrfBlockLines cfg vrf prefixes ↔
      prefixes = []) := by
  have f1 : isNetworkLine
      ("router bgp " ++ toString cfg.local_asn ++ " vrf " ++ vrf.name) = false := by
    rw [String.append_assoc, String.append_assoc]
    exact isNetworkLine_append_false _ (by decide) (by decide)
  have f8 : isNetworkLine ("  rd vpn export " ++ vrf.rd) = false :=
    isNetworkLine_append_false _ (by decide) (by decide)
  have fimp : ∀ rt : String,
      isNetworkLine ("  route-target vpn import " ++ rt) = false := fun rt =>
    isNetworkLine_append_false _ (by decide) (by decide)
  have fexp : ∀ rt : String,
      isNetworkLine ("  route-target vpn export " ++ rt) = false := fun rt =>
    isNetworkLine_append_false _ (by decide) (by decide)
  constructor
  · simp only [renderBgpVrfBlockLines, List.filter_append]
    rw [filter_map_eq_nil _ _ _ fimp, filter_map_eq_nil _ _ _ fexp]
    have hhead : List.filter isNetworkLine
        ["router bgp " ++ toString cfg.local_asn ++ " vrf " ++ vrf.name,
         " no bgp network import-check", " !", " address-family ipv4 unicast",
         "  export vpn", "  import vpn", "  redistribute static",
         "  rd vpn export " ++ vrf.rd] = [] := by
      simp +decide [List.filter, f1, f8]
    rw [hhead]
    by_cases hps : prefixes = []
    · subst hps
      simp +decide [List.filter]
    · rw [if_neg hps, filter_map_eq_self _ _ _ (fun p => isNetworkLine_netLine p)]
      simp +decide [List.filter]
  · constructor
    · intro hmem
      by_contra hne
      simp only [renderBgpVrfBlockLines, if_neg hne] at hmem
      have hl1 : "router bgp " ++ toString cfg.local_asn ++ " vrf " ++ vrf.name =
          "router bgp " ++ (toString cfg.local_asn ++ (" vrf " ++ vrf.name)) := by
        simp [String.append_assoc]
      rcases List.mem_append.mp hmem with h | h
      · rcases List.mem_append.mp h with h | h
        · rcases List.mem_append.mp h with h | h
          · rcases List.mem_append.mp h with h | h
            · rw [hl1] at h
              simp only [List.mem_cons, List.not_mem_nil, or_false] at h
              rcases h with h | h | h | h | h | h | h | h
              · exact absurd h (string_ne_append_left _ 1 (by decide) (by decide))
              · exact absurd h (by decide)
              · exact absurd h (by decide)
              · exact absurd h (by decide)
              · exact absurd h (by decide)
              · exact absurd h (by decide)
              · exact absurd h (by decide)
              · exact absurd h (string_ne_append_left _ 4 (by decide) (by decide))
            · rw [List.mem_map] at h
              obtain ⟨rt, _, h⟩ := h
              exact absurd h.symm (string_ne_append_left _ 4 (by decide) (by decide))
          · rw [List.mem_map] at h
            obtain ⟨rt, _, h⟩ := h
            exact absurd h.symm (string_ne_append_left _ 4 (by decide) (by decide))
        · rw [List.mem_map] at h
          obtain ⟨p, _, h⟩ := h
          exact absurd h.symm (string_ne_append_left _ 4 (by decide) (by decide))
      · simp only [List.mem_cons, List.not_mem_nil, or_false] at h
        rcases h with h | h
        · exact absurd h (by decide)
        · exact absurd h (by decide)
    · intro hps
      subst hps
      simp [renderBgpVrfBlockLines]

/-- Helper: a string differing from `fixed` within the first `k`
characters differs from `(fixed ++ x) ++ y`. -/
theorem string_ne_append_left2 {s fixed : String} (x y : String) (k : Nat)
    (hk : k ≤ fixed.data.length) (h : s.data.take k ≠ fixed.data.take k) :
    s ≠ (fixed ++ x) ++ y := by
  intro e
  apply h
  rw [e, String.data_append, String.data_append, List.append_assoc,
    List.take_append_eq_append_take, Nat.sub_eq_zero_of_le hk, List.take_zero,
    List.append_nil]

/-- Helper: a string differing from `fixed` within the first `k`
characters differs from `((fixed ++ x) ++ y) ++ z`. -/
theorem string_ne_append_left3 {s fixed : String} (x y z : String) (k : Nat)
    (hk : k ≤ fixed.data.length) (h : s.data.take k ≠ fixed.data.take k) :
    s ≠ ((fixed ++ x) ++ y) ++ z := by
  intro e
  apply h
  rw [e, String.data_append, String.data_append, String.data_append,
    List.append_assoc, List.append_assoc, List.take_append_eq_append_take,
    Nat.sub_eq_zero_of_le hk, List.take_zero, List.append_nil]

/-- Helper: the ipv4-vpn address-family header never occurs in a neighbour
block rendered for a neighbour whose families exclude VPNV4. -/
theorem af4_not_mem_neighbor_lines (cfg : GlobalConfig) (n : Neighbor)
    (hv4 : AddressFamily.VPNV4 ∉ n.families) :
    " address-family ipv4 vpn" ∉ renderNeighborBlock cfg n := by
  intro hmem
  have hbase : " address-family ipv4 vpn" ≠
      " neighbor " ++ n.address ++ " remote-as " ++ toString n.remote_asn :=
    string_ne_append_left3 _ _ _ 2 (by decide) (by decide)
  have hact : " address-family ipv4 vpn" ≠ "  neighbor " ++ n.address ++ " activate" :=
    string_ne_append_left2 _ _ 2 (by decide) (by decide)
  have hsend : " address-family ipv4 vpn" ≠
      "  neighbor " ++ n.address ++ " send-community extended" :=
    string_ne_append_left2 _ _ 2 (by decide) (by decide)
  cases hd : n.description with
  | none =>
    by_cases hv6 : AddressFamily.VPNV6 ∈ n.families ∧ cfg.export_ipv6 = true
    · simp +decide [renderNeighborBlock, hd, hv4, hv6, hbase, hact, hsend] at hmem
    · simp +decide [renderNeighborBlock, hd, hv4, hv6, hbase, hact, hsend] at hmem
  | some d =>
    have hdesc : " address-family ipv4 vpn" ≠
        " neighbor " ++ n.address ++ " description " ++ d :=
      string_ne_append_left3 _ _ _ 2 (by decide) (by decide)
    by_cases hde : d = ""
    · by_cases hv6 : AddressFamily.VPNV6 ∈ n.families ∧ cfg.export_ipv6 = true
      · simp +decide [renderNeighborBlock, hd, hde, hv4, hv6, hbase, hact, hsend] at hmem
      · simp +decide [renderNeighborBlock, hd, hde, hv4, hv6, hbase, hact, hsend] at hmem
    · by_cases hv6 : AddressFamily.VPNV6 ∈ n.families ∧ cfg.export_ipv6 = true
      · simp +decide [renderNeighborBlock, hd, hde, hv4, hv6, hbase, hdesc, hact,
          hsend] at hmem
      · simp +decide [renderNeighborBlock, hd, hde, hv4, hv6, hbase, hdesc, hact,
          hsend] at hmem

/-- Helper: the ipv6-vpn address-family header never occurs in a neighbour
block unless the neighbour has VPNV6 and the global ipv6 export flag is
set. -/
theorem af6_not_mem_neighbor_lines (cfg : GlobalConfig) (n : Neighbor)
    (hv6 : ¬(AddressFamily.VPNV6 ∈ n.families ∧ cfg.export_ipv6 = true)) :
    " address-family ipv6 vpn" ∉ renderNeighborBlock cfg n := by
  intro hmem
  have hbase : " address-family ipv6 vpn" ≠
      " neighbor " ++ n.address ++ " remote-as " ++ toString n.remote_asn :=
    string_ne_append_left3 _ _ _ 2 (by decide) (by decide)
  have hact : " address-family ipv6 vpn" ≠ "  neighbor " ++ n.address ++ " activate" :=
    string_ne_append_left2 _ _ 2 (by decide) (by decide)
  have hsend : " address-family ipv6 vpn" ≠
      "  neighbor " ++ n.address ++ " send-community extended" :=
    string_ne_append_left2 _ _ 2 (by decide) (by decide)
  cases hd : n.description with
  | none =>
    by_cases hv4 : AddressFamily.VPNV4 ∈ n.families
    · simp +decide [renderNeighborBlock, hd, hv4, hv6, hbase, hact, hsend] at hmem
    · simp +decide [renderNeighborBlock, hd, hv4, hv6, hbase, hact, hsend] at hmem
  | some d =>
    have hdesc : " address-family ipv6 vpn" ≠
        " neighbor " ++ n.address ++ " description " ++ d :=
      string_ne_append_left3 _ _ _ 2 (by decide) (by decide)
    by_cases hde : d = ""
    · by_cases hv4 : AddressFamily.VPNV4 ∈ n.families
      · simp +decide [renderNeighborBlock, hd, hde, hv4, hv6, hbase, hact, hsend] at hmem
      · simp +decide [renderNeighborBlock, hd, hde, hv4, hv6, hbase, hact, hsend] at hmem
    · by_cases hv4 : AddressFamily.VPNV4 ∈ n.families
      · simp +decide [renderNeighborBlock, hd, hde, hv4, hv6, hbase, hdesc, hact,
          hsend] at hmem
      · simp +decide [renderNeighborBlock, hd, hde, hv4, hv6, hbase, hdesc, hact,
          hsend] at hmem

/-- C7 counterexample: for a neighbour configured without the VPNV4
family, the rendered neighbour block contains no ipv4-vpn address-family
sub-block, refuting "emits an address-family sub-block ... for VPNV4
always". -/
theorem renderNeighborBlock_vpnv4_not_always_counterexample :
    ¬ (" address-family ipv4 vpn" ∈ renderNeighborBlock cfgW nbrNoV4) := by decide

/-- C7 (amended): every rendered neighbour block declares the neighbour
with its remote ASN; attaches the description line exactly when a
non-empty description is configured; contains the ipv4-vpn address-family
header iff VPNV4 is among the neighbour's families, and the ipv6-vpn
header iff VPNV6 is among them and the global `export_ipv6` flag is set;
and in the positive cases the full five-line sub-block (activation plus
extended-community propagation) occurs contiguously in the block. -/
theorem renderNeighborBlock_families_characterization
    (cfg : GlobalConfig) (n : Neighbor) :
    (" neighbor " ++ n.address ++ " remote-as " ++ toString n.remote_asn)
        ∈ renderNeighborBlock cfg n ∧
    (∀ d, n.description = some d → d ≠ "" →
        (" neighbor " ++ n.address ++ " description " ++ d) ∈ renderNeighborBlock cfg n) ∧
    (" address-family ipv4 vpn" ∈ renderNeighborBlock cfg n ↔
        AddressFamily.VPNV4 ∈ n.families) ∧
    (" address-family ipv6 vpn" ∈ renderNeighborBlock cfg n ↔
        (AddressFamily.VPNV6 ∈ n.families ∧ cfg.export_ipv6 = true)) ∧
    (AddressFamily.VPNV4 ∈ n.families →
        ["!", " address-family ipv4 vpn", "  neighbor " ++ n.address ++ " activate",
         "  neighbor " ++ n.address ++ " send-community extended",
         " exit-address-family"] <:+: renderNeighborBlock cfg n) ∧
    (AddressFamily.VPNV6 ∈ n.families → cfg.export_ipv6 = true →
        ["!", " address-family ipv6 vpn", "  neighbor " ++ n.address ++ " activate",
         "  neighbor " ++ n.address ++ " send-community extended",
         " exit-address-family"] <:+: renderNeighborBlock cfg n) := by
  refine ⟨?_, ?_, ?_, ?_, ?_, ?_⟩
  · simp [renderNeighborBlock]
  · intro d hd hde
    simp [renderNeighborBlock, hd, hde]
  · constructor
    · intro hmem
      by_contra hv4
      exact af4_not_mem_neighbor_lines cfg n hv4 hmem
    · intro hv4
      simp [renderNeighborBlock, hv4]
  · constructor
    · intro hmem
      by_contra hv6
      exact af6_not_mem_neighbor_lines cfg n hv6 hmem
    · intro hv6
      simp [renderNeighborBlock, hv6.1, hv6.2]
  · intro hv4
    simp only [renderNeighborBlock, if_pos hv4]
    exact List.infix_append _ _ _
  · intro hv6f hv6e
    simp only [renderNeighborBlock, if_pos (And.intro hv6f hv6e)]
    exact List.IsSuffix.isInfix ⟨_, rfl⟩

/-- C7 witness: the amended characterization applied to a neighbour with
the VPNV4 family yields its ipv4-vpn sub-block header. -/
theorem renderNeighborBlock_families_characterization_witness :
    " address-family ipv4 vpn" ∈ renderNeighborBlock cfgW nbrV4 :=
  (renderNeighborBlock_families_characterization cfgW nbrV4).2.2.1.mpr (by decide)

/-- Helper: every rendered VRF block is a non-empty string (its first line
starts with the routing-process header). -/
theorem renderBgpVrfBlock_ne_empty (cfg : GlobalConfig) (v : VRFDefinition)
    (ps : List String) : renderBgpVrfBlock cfg v ps ≠ "" :=
  joinSep_ne_empty _ _ _ _ rfl
    (append_ne_empty_left _ (append_ne_empty_left _ (append_ne_empty_left _ (by decide))))

/-- Helper: replacing the single joined-VRFs section by the individual VRF
block sections does not change the newline-joined filtered output, as long
as every block is non-empty. -/
theorem joinSep_filter_vrfs_section (X Y blocks : List String)
    (hb : ∀ b ∈ blocks, b ≠ "") :
    joinSep "\n" ((X ++ (if joinSep "\n" blocks = "" then []
        else [joinSep "\n" blocks]) ++ Y).filter (fun s => s != "")) =
    joinSep "\n" ((X ++ blocks ++ Y).filter (fun s => s != "")) := by
  cases blocks with
  | nil => simp [joinSep]
  | cons b bs =>
    have hv : joinSep "\n" (b :: bs) ≠ "" :=
      joinSep_ne_empty _ _ b bs rfl (hb b (List.mem_cons_self b bs))
    rw [if_neg hv]
    rw [List.filter_append, List.filter_append, List.filter_append, List.filter_append]
    have hfil1 : List.filter (fun s => s != "") [joinSep "\n" (b :: bs)] =
        [joinSep "\n" (b :: bs)] := by
      simp [List.filter, bne_iff_ne.mpr hv]
    have hfil2 : List.filter (fun s => s != "") (b :: bs) = b :: bs := by
      apply List.filter_eq_self.mpr
      intro a ha
      simp [hb a ha]
    rw [hfil1, hfil2]
    exact joinSep_middle "\n" (X.filter _) (Y.filter _) (b :: bs) (by simp)

/-- C8 counterexample: with one configured neighbour, no global sections
and one tenant, the rendered text is not the blank-line-separated
concatenation of its sections (the code joins sections with a single
newline). -/
theorem render_blank_line_separation_counterexample :
    renderBody cfgC8 false [tenC8] ≠ renderSpecOrderBlankSep cfgC8 false [tenC8] := by
  decide

/-- C8 (amended): for every configuration and tenant list, the rendered
body equals the newline-join of the non-empty sections taken in the order
header plus neighbour blocks (only when global sections are rendered),
then one VRF block per tenant in tenant-list order, then the route-map
stanzas (when any neighbour is configured), then a terminal `line vty`
stanza only when global sections are rendered. -/
theorem render_eq_spec_section_order (cfg : GlobalConfig) (includeGlobals : Bool)
    (tenants : List TenantContext) :
    renderBody cfg includeGlobals tenants = renderSpecOrder cfg includeGlobals tenants := by
  have hb : ∀ b ∈ tenants.map (fun t => renderBgpVrfBlock cfg t.vrf t.advertised_prefixes),
      b ≠ "" := by
    intro b hbm
    rw [List.mem_map] at hbm
    obtain ⟨t, _, rfl⟩ := hbm
    exact renderBgpVrfBlock_ne_empty cfg t.vrf t.advertised_prefixes
  cases includeGlobals with
  | false =>
    by_cases hnb : cfg.neighbours.map Neighbor.address = []
    · simp only [renderBody, renderSections, renderSpecOrder, renderVrfs, Bool.false_eq_true,
        if_false, if_pos hnb, List.nil_append, List.append_nil]
      simpa using joinSep_filter_vrfs_section [] [] _ hb
    · simp only [renderBody, renderSections, renderSpecOrder, renderVrfs, Bool.false_eq_true,
        if_false, if_neg hnb, List.nil_append, List.append_nil]
      simpa using joinSep_filter_vrfs_section [] [renderRouteMaps] _ hb
  | true =>
    by_cases hnb : cfg.neighbours.map Neighbor.address = []
    · simp only [renderBody, renderSections, renderSpecOrder, renderVrfs, if_true,
        if_pos hnb, List.append_nil, List.append_assoc]
      simpa using joinSep_filter_vrfs_section [FRR_HEADER, renderNeighbors cfg]
        ["line vty", "!"] _ hb
    · simp only [renderBody, renderSections, renderSpecOrder, renderVrfs, if_true,
        if_neg hnb, List.append_assoc]
      simpa using joinSep_filter_vrfs_section [FRR_HEADER, renderNeighbors cfg]
        (renderRouteMaps :: ["line vty", "!"]) _ hb

end OvnBgpVpnv4
